import Mathlib

/-!
Verification development for the rwa_amm repository (compliance-gated
constant-product AMM with Token-2022 transfer hooks).

Shallow embedding conventions:
* Solana `Pubkey` values are modelled as `Nat` (equality is all the code uses);
  `Pubkey::default()` is `0`.
* `u64` / `u128` arithmetic is modelled over `Nat` with explicit bounds checks
  (`u64checkedAdd`, `u128checkedMul`, ...) mirroring Rust `checked_*` calls;
  `saturating_mul` is modelled by clamping at `U64MAX`.
* Fallible Rust functions returning `Result<T, PoolError>` become
  `Except PoolError T`; `Option`-returning SPL helpers become `Option`.
* The Solana runtime reverts every state mutation of an instruction that
  returns an error, so an `Except.error` outcome of an instruction embedding
  means the caller observes no state change.
* Pool-internal computations (access validator, dynamic-fee update, the
  pricing curve `get_swap_result`, `apply_swap_result`) live outside the
  provided sources and are treated by the spec as opaque black boxes; the
  swap embedding takes their outcomes as environment fields.
-/

def U64MAX : Nat := 2 ^ 64 - 1

def U128MAX : Nat := 2 ^ 128 - 1

/-- Rust u64::checked_add. -/
def u64checkedAdd (a b : Nat) : Option Nat :=
  if a + b ≤ U64MAX then some (a + b) else none

/-- Rust u64::checked_sub. -/
def u64checkedSub (a b : Nat) : Option Nat :=
  if b ≤ a then some (a - b) else none

/-- Rust u64::saturating_mul. -/
def u64SaturatingMul (a b : Nat) : Nat :=
  min (a * b) U64MAX

/-- Rust u128::checked_mul. -/
def u128checkedMul (a b : Nat) : Option Nat :=
  if a * b ≤ U128MAX then some (a * b) else none

/-- Rust u128::checked_add. -/
def u128checkedAdd (a b : Nat) : Option Nat :=
  if a + b ≤ U128MAX then some (a + b) else none

/-- Rust u128::checked_sub. -/
def u128checkedSub (a b : Nat) : Option Nat :=
  if b ≤ a then some (a - b) else none

/-- MAX_FEE_BASIS_POINTS of the SPL Token-2022 transfer-fee extension. -/
def MAX_FEE_BASIS_POINTS : Nat := 10000

/-- ONE_IN_BASIS_POINTS of the SPL Token-2022 transfer-fee extension. -/
def ONE_IN_BASIS_POINTS : Nat := 10000

/-- An epoch transfer-fee schedule of the SPL Token-2022 transfer-fee
extension: `transfer_fee_basis_points : u16`, `maximum_fee : u64`. -/
structure TransferFee where
  transferFeeBasisPoints : Nat
  maximumFee : Nat
  deriving DecidableEq, Repr

/-- SPL Token-2022 `TransferFee::calculate_fee` (the external dependency the
source calls): ceiling-divide `pre_fee_amount * basis_points` by 10000 and cap
the result at `maximum_fee`; `checked_*` steps are modelled explicitly. -/
def TransferFee.calculate_fee (tf : TransferFee) (preFeeAmount : Nat) : Option Nat :=
  if tf.transferFeeBasisPoints = 0 ∨ preFeeAmount = 0 then
    some 0
  else do
    let numerator ← u128checkedMul preFeeAmount tf.transferFeeBasisPoints
    let s1 ← u128checkedAdd numerator ONE_IN_BASIS_POINTS
    let s2 ← u128checkedSub s1 1
    let rawFee := s2 / ONE_IN_BASIS_POINTS
    some (min rawFee tf.maximumFee)

/-- SPL Token-2022 `TransferFee::calculate_pre_fee_amount`: inverse of
`calculate_fee`, with the documented 0-fee, 0-amount and 100%-fee arms and the
maximum-fee capping branch. -/
def TransferFee.calculate_pre_fee_amount (tf : TransferFee) (postFeeAmount : Nat) : Option Nat :=
  if tf.transferFeeBasisPoints = 0 then
    some postFeeAmount
  else if postFeeAmount = 0 then
    some 0
  else if tf.transferFeeBasisPoints = ONE_IN_BASIS_POINTS then
    u64checkedAdd tf.maximumFee postFeeAmount
  else do
    let numerator ← u128checkedMul postFeeAmount ONE_IN_BASIS_POINTS
    let denominator := ONE_IN_BASIS_POINTS - tf.transferFeeBasisPoints
    let s1 ← u128checkedAdd numerator denominator
    let s2 ← u128checkedSub s1 1
    let rawPreFeeAmount := s2 / denominator
    let diff ← u128checkedSub rawPreFeeAmount postFeeAmount
    if tf.maximumFee ≤ diff then
      u64checkedAdd postFeeAmount tf.maximumFee
    else if rawPreFeeAmount ≤ U64MAX then
      some rawPreFeeAmount
    else
      none

/-- SPL Token-2022 `TransferFee::calculate_inverse_fee`: the fee charged on the
reconstructed pre-fee amount. -/
def TransferFee.calculate_inverse_fee (tf : TransferFee) (postFeeAmount : Nat) : Option Nat := do
  let preFeeAmount ← tf.calculate_pre_fee_amount postFeeAmount
  tf.calculate_fee preFeeAmount

/-- Error codes of the cp-amm program (the subset this development uses). -/
inductive PoolError where
  | PoolDisabled
  | AmountIsZero
  | ExceededSlippage
  | InvalidHookSlippageTolerance
  | MissingHookRegistry
  | UnauthorizedHookProgram
  | InvalidHookRegistry
  | MathOverflow
  | FeeInverseIsIncorrect
  | HookRegistryFull
  | HookProgramAlreadyWhitelisted
  | HookProgramNotFound
  | HookExecutionTimeout
  | HookAccountResolutionFailed
  | HookExecutionFailed
  | UserSanctioned
  | UserAccountFrozen
  | UserKycExpired
  | UserNotKycVerified
  | InvalidCountryCode
  | InvalidStateCode
  | IsNotCurrentlyTransferring
  deriving DecidableEq, Repr

/-- Result record of `calculate_transfer_fee_excluded_amount` (utils/token.rs). -/
structure TransferFeeExcludedAmount where
  amount : Nat
  transfer_fee : Nat
  deriving DecidableEq, Repr

/-- Result record of `calculate_transfer_fee_included_amount` (utils/token.rs). -/
structure TransferFeeIncludedAmount where
  amount : Nat
  transfer_fee : Nat
  deriving DecidableEq, Repr

/-- utils/token.rs `calculate_transfer_fee_excluded_amount`, parameterized by
the mint's epoch transfer fee (`get_epoch_transfer_fee` outcome): charge the
schedule's fee and subtract it (checked), or pass through when the mint has no
transfer-fee extension. -/
def calculate_transfer_fee_excluded_amount (epochTransferFee : Option TransferFee)
    (transferFeeIncludedAmount : Nat) : Except PoolError TransferFeeExcludedAmount :=
  match epochTransferFee with
  | some tf =>
    match tf.calculate_fee transferFeeIncludedAmount with
    | none => .error .MathOverflow
    | some transferFee =>
      match u64checkedSub transferFeeIncludedAmount transferFee with
      | none => .error .MathOverflow
      | some transferFeeExcludedAmount =>
        .ok ⟨transferFeeExcludedAmount, transferFee⟩
  | none => .ok ⟨transferFeeIncludedAmount, 0⟩

/-- utils/token.rs `calculate_transfer_fee_included_amount`: inverse direction.
Special-cases a 100%-fee schedule by substituting `maximum_fee`, re-derives the
forward fee on the checked sum and fails with `FeeInverseIsIncorrect` when the
round-trip disagrees.  The source calls `.unwrap()` on the verification
`calculate_fee`; that call never returns `None` for a u64-range argument, and
the unreachable arm is mapped to `MathOverflow` here. -/
def calculate_transfer_fee_included_amount (epochTransferFee : Option TransferFee)
    (transferFeeExcludedAmount : Nat) : Except PoolError TransferFeeIncludedAmount :=
  if transferFeeExcludedAmount = 0 then
    .ok ⟨0, 0⟩
  else
    match epochTransferFee with
    | some tf =>
      let feeResult : Except PoolError Nat :=
        if tf.transferFeeBasisPoints = MAX_FEE_BASIS_POINTS then
          .ok tf.maximumFee
        else
          match tf.calculate_inverse_fee transferFeeExcludedAmount with
          | none => .error .MathOverflow
          | some f => .ok f
      match feeResult with
      | .error e => .error e
      | .ok transferFee =>
        match u64checkedAdd transferFeeExcludedAmount transferFee with
        | none => .error .MathOverflow
        | some transferFeeIncludedAmount =>
          match tf.calculate_fee transferFeeIncludedAmount with
          | none => .error .MathOverflow
          | some transferFeeVerification =>
            if transferFee = transferFeeVerification then
              .ok ⟨transferFeeIncludedAmount, transferFee⟩
            else
              .error .FeeInverseIsIncorrect
    | none => .ok ⟨transferFeeExcludedAmount, 0⟩

/-- state/hook_registry.rs `HookRegistry`: authority, a fixed 32-slot array of
whitelisted program ids (modelled as a length-32 list), and the live count. -/
structure HookRegistry where
  authority : Nat
  whitelisted_programs : List Nat
  program_count : Nat
  deriving DecidableEq, Repr

/-- Well-formedness of a `HookRegistry` byte image: the array has exactly 32
slots, the count fits, and the first `program_count` slots hold no duplicate. -/
def HookRegistry.wf (r : HookRegistry) : Prop :=
  r.whitelisted_programs.length = 32 ∧
  r.program_count ≤ 32 ∧
  (r.whitelisted_programs.take r.program_count).Nodup

instance (r : HookRegistry) : Decidable r.wf := by
  unfold HookRegistry.wf
  infer_instance

/-- state/hook_registry.rs `HookRegistry::is_program_whitelisted`: member of
the first `program_count` slots (with the source's explicit 0-count early
return). -/
def HookRegistry.is_program_whitelisted (r : HookRegistry) (programId : Nat) : Bool :=
  if r.program_count = 0 then
    false
  else
    (r.whitelisted_programs.take r.program_count).any (fun p => p = programId)

/-- state/hook_registry.rs `HookRegistry::add_program`: full and
already-present checks, then write slot `program_count` and bump the count. -/
def HookRegistry.add_program (r : HookRegistry) (programId : Nat) :
    Except PoolError HookRegistry :=
  if ¬ r.program_count < 32 then
    .error .HookRegistryFull
  else if r.is_program_whitelisted programId then
    .error .HookProgramAlreadyWhitelisted
  else
    .ok { r with
          whitelisted_programs := r.whitelisted_programs.set r.program_count programId,
          program_count := r.program_count + 1 }

/-- The shift loop of `HookRegistry::remove_program`: for `i` in
`[start, stop)`, `arr[i] := arr[i + 1]`. -/
def shiftLeftFrom (arr : List Nat) (start stop : Nat) : List Nat :=
  if start < stop then
    shiftLeftFrom (arr.set start (arr.getD (start + 1) 0)) (start + 1) stop
  else
    arr
termination_by stop - start

/-- state/hook_registry.rs `HookRegistry::remove_program`: locate the first
matching slot among the first `program_count`, shift the later live slots left
by one, clear the vacated trailing slot to the default id and decrement the
count. -/
def HookRegistry.remove_program (r : HookRegistry) (programId : Nat) :
    Except PoolError HookRegistry :=
  match (r.whitelisted_programs.take r.program_count).findIdx? (fun p => p = programId) with
  | none => .error .HookProgramNotFound
  | some index =>
    let shifted := shiftLeftFrom r.whitelisted_programs index (r.program_count - 1)
    .ok { r with
          whitelisted_programs := shifted.set (r.program_count - 1) 0,
          program_count := r.program_count - 1 }

/-- Trade direction of params/swap.rs. -/
inductive TradeDirection where
  | AtoB
  | BtoA
  deriving DecidableEq, Repr

/-- The mint data the swap path reads: the account key, the epoch transfer-fee
schedule (`get_epoch_transfer_fee`) and the transfer-hook program id
(`has_transfer_hook`), both decoded from the mint's Token-2022 extensions. -/
structure MintInfo where
  key : Nat
  transferFee : Option TransferFee
  transferHookProgramId : Option Nat
  deriving DecidableEq, Repr

/-- utils/token.rs `has_transfer_hook` on the decoded mint data. -/
def has_transfer_hook (m : MintInfo) : Option Nat :=
  m.transferHookProgramId

/-- ix_swap.rs `SwapCtx::get_trade_direction`: `AtoB` exactly when the input
token account's mint equals the pool's token A mint, `BtoA` otherwise. -/
def get_trade_direction (inputTokenAccountMint tokenAMintKey : Nat) : TradeDirection :=
  if inputTokenAccountMint = tokenAMintKey then
    TradeDirection.AtoB
  else
    TradeDirection.BtoA

/-- The single `FeeMode` field the settlement path reads (which side pays the
referral fee); `FeeMode::get_fee_mode` itself is outside the given sources. -/
structure FeeMode where
  fees_on_token_a : Bool
  deriving DecidableEq, Repr

/-- The `SwapResult` fields the settlement path reads; the pricing curve that
produces it is a black box for this core. -/
structure SwapResult where
  output_amount : Nat
  referral_fee : Nat
  deriving DecidableEq, Repr

/-- A balance movement invoked by the settlement (mint key and raw amount).
Recording invocations separates "the movement was attempted" from the
all-or-nothing state outcome. -/
inductive TransferEvent where
  | userToVault (mint amount : Nat)
  | vaultToUser (mint amount : Nat)
  | referral (mint amount : Nat)
  deriving DecidableEq, Repr

/-- Environment of one `handle_swap` invocation: instruction parameters,
decoded account data, and the outcomes of the pool-internal computations and
of the three movement primitives, which live outside the provided sources. -/
structure SwapEnv where
  canSwap : Bool
  amount_in : Nat
  minimum_amount_out : Nat
  inputTokenAccountMint : Nat
  tokenAMint : MintInfo
  tokenBMint : MintInfo
  hasReferral : Bool
  hookRegistry : Option HookRegistry
  updatePreSwap : Except PoolError Unit
  getFeeMode : Except PoolError FeeMode
  getSwapResult : Except PoolError SwapResult
  applySwapResult : Except PoolError Unit
  inputTransferResult : Except PoolError Unit
  outputTransferResult : Except PoolError Unit
  referralTransferResult : Except PoolError Unit

/-- The mint the swap consumes, per the direction match in `handle_swap`. -/
def SwapEnv.tokenInMint (env : SwapEnv) : MintInfo :=
  match get_trade_direction env.inputTokenAccountMint env.tokenAMint.key with
  | .AtoB => env.tokenAMint
  | .BtoA => env.tokenBMint

/-- The mint the swap pays out, per the direction match in `handle_swap`. -/
def SwapEnv.tokenOutMint (env : SwapEnv) : MintInfo :=
  match get_trade_direction env.inputTokenAccountMint env.tokenAMint.key with
  | .AtoB => env.tokenBMint
  | .BtoA => env.tokenAMint

/-- The hook-enabled minimum of ix_swap.rs lines 151-152:
`minimum_amount_out.saturating_mul(100 + 50) / 100`. -/
def hook_minimum_amount (minimumAmountOut : Nat) : Nat :=
  u64SaturatingMul minimumAmountOut (100 + 50) / 100

/-- One `if let Some(pid) = ... require!(registry.is_program_whitelisted ...)`
step of the mandatory whitelist gate in `handle_swap`. -/
def checkHookProgram (registry : HookRegistry) (hookProgram : Option Nat) :
    Except PoolError Unit :=
  match hookProgram with
  | some pid =>
    if registry.is_program_whitelisted pid then .ok () else .error .UnauthorizedHookProgram
  | none => .ok ()

/-- ix_swap.rs `handle_swap`, step by step: admission check, direction
resolution, input fee exclusion and zero check, dynamic-fee update, fee mode,
pricing, output fee exclusion, slippage check, hook-tightened slippage check,
state commit, mandatory whitelist gate, then the gated movements.  Returns the
movements invoked together with the instruction outcome; an error outcome
reverts all state (Solana instruction atomicity). -/
def handle_swap (env : SwapEnv) : List TransferEvent × Except PoolError Unit :=
  if ¬ env.canSwap then ([], .error .PoolDisabled) else
  let tokenInMint := env.tokenInMint
  let tokenOutMint := env.tokenOutMint
  match calculate_transfer_fee_excluded_amount tokenInMint.transferFee env.amount_in with
  | .error e => ([], .error e)
  | .ok exIn =>
  if ¬ exIn.amount > 0 then ([], .error .AmountIsZero) else
  match env.updatePreSwap with
  | .error e => ([], .error e)
  | .ok _ =>
  match env.getFeeMode with
  | .error e => ([], .error e)
  | .ok feeMode =>
  match env.getSwapResult with
  | .error e => ([], .error e)
  | .ok swapResult =>
  match calculate_transfer_fee_excluded_amount tokenOutMint.transferFee swapResult.output_amount with
  | .error e => ([], .error e)
  | .ok exOut =>
  if ¬ exOut.amount ≥ env.minimum_amount_out then ([], .error .ExceededSlippage) else
  let inputHookProgram := has_transfer_hook tokenInMint
  let outputHookProgram := has_transfer_hook tokenOutMint
  let inputHasHook := inputHookProgram.isSome
  let outputHasHook := outputHookProgram.isSome
  let hookSlippage : Except PoolError Unit :=
    if inputHasHook ∨ outputHasHook then
      if ¬ exOut.amount ≥ hook_minimum_amount env.minimum_amount_out then
        .error .InvalidHookSlippageTolerance
      else .ok ()
    else .ok ()
  match hookSlippage with
  | .error e => ([], .error e)
  | .ok _ =>
  match env.applySwapResult with
  | .error e => ([], .error e)
  | .ok _ =>
  let whitelistGate : Except PoolError Unit :=
    if inputHasHook ∨ outputHasHook then
      match env.hookRegistry with
      | none => .error .MissingHookRegistry
      | some registry => do
        checkHookProgram registry inputHookProgram
        checkHookProgram registry outputHookProgram
    else .ok ()
  match whitelistGate with
  | .error e => ([], .error e)
  | .ok _ =>
  let ev1 := TransferEvent.userToVault tokenInMint.key env.amount_in
  match env.inputTransferResult with
  | .error e => ([ev1], .error e)
  | .ok _ =>
  let ev2 := TransferEvent.vaultToUser tokenOutMint.key swapResult.output_amount
  match env.outputTransferResult with
  | .error e => ([ev1, ev2], .error e)
  | .ok _ =>
  if env.hasReferral then
    let referralMint := if feeMode.fees_on_token_a then env.tokenAMint else env.tokenBMint
    let ev3 := TransferEvent.referral referralMint.key swapResult.referral_fee
    match env.referralTransferResult with
    | .error e => ([ev1, ev2, ev3], .error e)
    | .ok _ => ([ev1, ev2, ev3], .ok ())
  else
    ([ev1, ev2], .ok ())

/-- transfer-hook/src/state.rs `UserKYC` (identical to the copy embedded in
transfer_hook.rs).  Byte-array string fields (`country`, `state`, `city`) are
modelled as byte lists. -/
structure UserKYC where
  user : Nat
  kyc_level : Nat
  risk_score : Nat
  last_updated : Int
  flags : Nat
  daily_volume : Nat
  monthly_volume : Nat
  last_reset_day : Int
  last_reset_month : Int
  country : List Nat
  state : List Nat
  city : List Nat
  deriving DecidableEq, Repr

def UserKYC.UNVERIFIED : Nat := 0

def UserKYC.BASIC : Nat := 1

def UserKYC.ENHANCED : Nat := 2

def UserKYC.INSTITUTIONAL : Nat := 3

def UserKYC.FLAG_SANCTIONS : Nat := 0x01

def UserKYC.FLAG_PEP : Nat := 0x02

def UserKYC.FLAG_FROZEN : Nat := 0x04

def UserKYC.FLAG_EXPIRED : Nat := 0x08

/-- state.rs `UserKYC::is_sanctioned`. -/
def UserKYC.is_sanctioned (k : UserKYC) : Bool :=
  Nat.land k.flags UserKYC.FLAG_SANCTIONS != 0

/-- state.rs `UserKYC::is_pep` (transfer_hook.rs copy). -/
def UserKYC.is_pep (k : UserKYC) : Bool :=
  Nat.land k.flags UserKYC.FLAG_PEP != 0

/-- state.rs `UserKYC::is_frozen`. -/
def UserKYC.is_frozen (k : UserKYC) : Bool :=
  Nat.land k.flags UserKYC.FLAG_FROZEN != 0

/-- state.rs `UserKYC::is_expired`. -/
def UserKYC.is_expired (k : UserKYC) : Bool :=
  Nat.land k.flags UserKYC.FLAG_EXPIRED != 0

/-- state.rs `UserKYC::is_eligible_for_trading`: KYC level at least Basic and
none of the sanctioned / frozen / expired flags set. -/
def UserKYC.is_eligible_for_trading (k : UserKYC) : Bool :=
  decide (UserKYC.BASIC ≤ k.kyc_level) &&
    !k.is_sanctioned && !k.is_frozen && !k.is_expired

/-- Rust `trim_end_matches('\0')` on a byte string. -/
def trimTrailingZeros (l : List Nat) : List Nat :=
  (l.reverse.dropWhile (fun b => b = 0)).reverse

/-- state.rs `UserKYC::get_country_str` (UTF-8 lossy read of two ASCII bytes,
trailing NULs trimmed). -/
def UserKYC.get_country_str (k : UserKYC) : List Nat :=
  trimTrailingZeros k.country

/-- state.rs `UserKYC::get_state_str`. -/
def UserKYC.get_state_str (k : UserKYC) : List Nat :=
  trimTrailingZeros k.state

/-- Byte list of a Lean string literal (used for the parser's ASCII string
constants; for the ASCII strings this development uses, code points coincide
with UTF-8 bytes). -/
def strBytes (s : String) : List Nat :=
  s.data.map (fun c => c.val.toNat)

/-- ASCII whitespace bytes trimmed by Rust `str::trim`. -/
def isAsciiWhitespace (b : Nat) : Bool :=
  b = 9 ∨ b = 10 ∨ b = 11 ∨ b = 12 ∨ b = 13 ∨ b = 32

/-- Rust `str::trim` on a byte string. -/
def asciiTrim (l : List Nat) : List Nat :=
  ((l.dropWhile isAsciiWhitespace).reverse.dropWhile isAsciiWhitespace).reverse

/-- Flush step of `Token2022MetadataParser::extract_ascii_strings`: trim the
current run and keep it when the trimmed length is still at least 3. -/
def pushTrimmed (cur : List Nat) (acc : List (List Nat)) : List (List Nat) :=
  let t := asciiTrim cur
  if 3 ≤ t.length then acc ++ [t] else acc

/-- Loop body of `Token2022MetadataParser::extract_ascii_strings`: accumulate
printable ASCII runs, flushing a run at a non-printable byte only when it is
at least 3 bytes long. -/
def extractAsciiStringsGo : List Nat → List Nat → List (List Nat) → List (List Nat)
  | [], cur, acc =>
    if cur ≠ [] ∧ 3 ≤ cur.length then pushTrimmed cur acc else acc
  | b :: rest, cur, acc =>
    if b ≤ 127 ∧ ¬ (b < 32 ∨ b = 127) ∧ b ≠ 0 then
      extractAsciiStringsGo rest (cur ++ [b]) acc
    else if cur ≠ [] ∧ 3 ≤ cur.length then
      extractAsciiStringsGo rest [] (pushTrimmed cur acc)
    else
      extractAsciiStringsGo rest [] acc

/-- state.rs `Token2022MetadataParser::extract_ascii_strings`. -/
def extract_ascii_strings (data : List Nat) : List (List Nat) :=
  extractAsciiStringsGo data [] []

/-- The `TokenMetadata` fields the heuristic parser produces (strings as byte
lists). -/
structure TokenMetadata where
  mint : Nat
  name : List Nat
  symbol : List Nat
  uri : List Nat
  additional_metadata : List (List Nat × List Nat)
  deriving DecidableEq, Repr

/-- Field-classification step of
`Token2022MetadataParser::extract_metadata_from_account_data`: a string
starting with http is the URI, a short all-uppercase-or-digit string is the
symbol, any other string of length 3..50 is the name. -/
def classifyMetadataString (s : List Nat) (nm sym uri : List Nat) :
    List Nat × List Nat × List Nat :=
  if (strBytes "http").isPrefixOf s then
    (nm, sym, s)
  else if s.length ≤ 10 ∧ s.all (fun c => (65 ≤ c ∧ c ≤ 90) ∨ (48 ≤ c ∧ c ≤ 57)) then
    (nm, s, uri)
  else if s.length ≤ 50 ∧ 2 < s.length then
    (s, sym, uri)
  else
    (nm, sym, uri)

/-- Fold of `classifyMetadataString` over the extracted strings, with the
source's defaults. -/
def classifyAll (strings : List (List Nat)) : List Nat × List Nat × List Nat :=
  strings.foldl
    (fun acc s => classifyMetadataString s acc.1 acc.2.1 acc.2.2)
    (strBytes "Unknown Token", strBytes "UNK", [])

/-- state.rs `Token2022MetadataParser::extract_metadata_from_account_data`
(always succeeds). -/
def extract_metadata_from_account_data (accountData : List Nat) :
    Except PoolError TokenMetadata :=
  let strings := extract_ascii_strings accountData
  let nsu := classifyAll strings
  .ok { mint := 0,
        name := nsu.1,
        symbol := nsu.2.1,
        uri := nsu.2.2,
        additional_metadata := [(strBytes "strings_found", strBytes (toString strings.length))] }

/-- state.rs `Token2022MetadataParser::parse_metadata_from_mint`. -/
def parse_metadata_from_mint (accountData : List Nat) : Except PoolError TokenMetadata :=
  extract_metadata_from_account_data accountData

/-- state.rs `RwaMetadata`. -/
structure RwaMetadata where
  allowed_countries : Option (List Nat)
  restricted_states : Option (List Nat)
  trading_hours : Option (List Nat)
  timezone_offset : Option (List Nat)
  metadata_type : Option (List Nat)
  compliance_status : Option (List Nat)
  deriving DecidableEq, Repr

/-- state.rs `Token2022MetadataParser::extract_rwa_metadata`: the source
ignores its argument and returns a record with every restriction field
`None`. -/
def extract_rwa_metadata (_metadata : TokenMetadata) : RwaMetadata :=
  { allowed_countries := none,
    restricted_states := none,
    trading_hours := none,
    timezone_offset := none,
    metadata_type := none,
    compliance_status := none }

/-- The error selected by the ineligible-user branch of
`handle_transfer_hook` (transfer_hook.rs lines 81-98): the four flag checks in
source order; `none` when the user is eligible (or when, per the source's
fall-through, no check fires). -/
def kycGateError (k : UserKYC) : Option PoolError :=
  if ¬ k.is_eligible_for_trading then
    if k.is_sanctioned then some .UserSanctioned
    else if k.is_frozen then some .UserAccountFrozen
    else if k.is_expired then some .UserKycExpired
    else if k.kyc_level < UserKYC.BASIC then some .UserNotKycVerified
    else none
  else none

/-- Country gate of `handle_transfer_hook` (transfer_hook.rs lines 116-125):
reject when an allowed-countries string is present and does not contain the
user's country (Rust `String::contains`, substring). -/
def geoCountryCheck (k : UserKYC) (rwa : RwaMetadata) : Except PoolError Unit :=
  match rwa.allowed_countries with
  | some allowed =>
    if ¬ decide (List.IsInfix k.get_country_str allowed) then .error .InvalidCountryCode else .ok ()
  | none => .ok ()

/-- State gate of `handle_transfer_hook` (transfer_hook.rs lines 127-134):
reject when a restricted-states string contains the user's country_state
code. -/
def geoStateCheck (k : UserKYC) (rwa : RwaMetadata) : Except PoolError Unit :=
  match rwa.restricted_states with
  | some restricted =>
    let userStateCode := k.get_country_str ++ [95] ++ k.get_state_str
    if decide (List.IsInfix userStateCode restricted) then .error .InvalidStateCode else .ok ()
  | none => .ok ()

/-- transfer-hook/src/transfer_hook.rs `handle_transfer_hook` as a decision
function of the owner's KYC record and the raw mint account bytes: the KYC
eligibility gate, then metadata parsing and the geographic gates (a parse
failure falls back to KYC-only validation). -/
def handle_transfer_hook (kyc : UserKYC) (mintAccountData : List Nat) :
    Except PoolError Unit :=
  match kycGateError kyc with
  | some e => .error e
  | none =>
    match parse_metadata_from_mint mintAccountData with
    | .ok metadata =>
      let rwaMetadata := extract_rwa_metadata metadata
      match geoCountryCheck kyc rwaMetadata with
      | .error e => .error e
      | .ok _ =>
        match geoStateCheck kyc rwaMetadata with
        | .error e => .error e
        | .ok _ => .ok ()
    | .error _ => .ok ()

/-- Closed form of `TransferFee.calculate_fee` for u64-range inputs (proved in
`calculate_fee_eq`): the ceiling-divided basis-point fee capped at
`maximum_fee`. -/
def feeValue (tf : TransferFee) (x : Nat) : Nat :=
  if tf.transferFeeBasisPoints = 0 ∨ x = 0 then 0
  else
    min ((x * tf.transferFeeBasisPoints + ONE_IN_BASIS_POINTS - 1) / ONE_IN_BASIS_POINTS)
      tf.maximumFee

/-- Test fixture: a hook-bearing mint (hook program id 42). -/
def mintWithHook : MintInfo := ⟨100, none, some 42⟩

/-- Test fixture: a plain mint without extensions. -/
def mintPlain : MintInfo := ⟨200, none, none⟩

/-- Test fixture: a second plain mint. -/
def mintPlainA : MintInfo := ⟨300, none, none⟩

/-- Test fixture: a registry whitelisting program 42. -/
def registryWith42 : HookRegistry := ⟨7, 42 :: List.replicate 31 0, 1⟩

/-- Test fixture: a registry with no whitelisted programs. -/
def emptyRegistry : HookRegistry := ⟨7, List.replicate 32 0, 0⟩

/-- Test fixture: a registry whitelisting programs 42 and 43. -/
def registryPair : HookRegistry := ⟨7, 42 :: 43 :: List.replicate 30 0, 2⟩

/-- Test fixture: a registry at full capacity (32 distinct programs). -/
def fullRegistry : HookRegistry := ⟨7, List.range 32, 32⟩

/-- Test fixture: hook-enabled swap, minimum out 1000, priced output 1005
(no transfer fees, registry whitelists the hook). -/
def envHookBase : SwapEnv :=
  ⟨true, 1000, 1000, 100, mintWithHook, mintPlain, false, some registryWith42,
    .ok (), .ok ⟨true⟩, .ok ⟨1005, 0⟩, .ok (), .ok (), .ok (), .ok ()⟩

/-- Test fixture: hook-enabled swap whose priced output 1500 meets the
tightened minimum. -/
def envHookPass : SwapEnv := { envHookBase with getSwapResult := .ok ⟨1500, 0⟩ }

/-- Test fixture: hook-enabled swap with no registry account supplied. -/
def envMissingRegistry : SwapEnv := { envHookPass with hookRegistry := none }

/-- Test fixture: hook-enabled swap whose registry does not whitelist the
hook program. -/
def envUnauthorized : SwapEnv := { envHookPass with hookRegistry := some emptyRegistry }

/-- Test fixture: hook-free swap whose priced output 999 is below the
minimum 1000. -/
def envPlainSlippage : SwapEnv :=
  ⟨true, 1000, 1000, 300, mintPlainA, mintPlain, false, none,
    .ok (), .ok ⟨true⟩, .ok ⟨999, 0⟩, .ok (), .ok (), .ok (), .ok ()⟩

/-- Test fixture: hook-enabled swap whose minimum out makes
`minimum_amount_out * 150` exceed the u64 range. -/
def envSaturating : SwapEnv :=
  { envHookBase with minimum_amount_out := 2 ^ 63, getSwapResult := .ok ⟨2 ^ 64 - 1, 0⟩ }

/-- Test fixture: an eligible KYC record (Basic level, PEP flag set, country
CN). -/
def kycEligibleCN : UserKYC :=
  ⟨1, 1, 50, 0, 2, 0, 0, 0, 0, strBytes "CN", strBytes "BJ", List.replicate 32 0⟩

/-- Test fixture: a sanctioned KYC record. -/
def kycSanctioned : UserKYC := { kycEligibleCN with flags := 1 }

/-- Test fixture: a frozen KYC record. -/
def kycFrozen : UserKYC := { kycEligibleCN with flags := 4 }

/-- Test fixture: an expired KYC record. -/
def kycExpiredRecord : UserKYC := { kycEligibleCN with flags := 8 }

/-- Test fixture: an unverified KYC record (level 0, no flags). -/
def kycUnverified : UserKYC := { kycEligibleCN with kyc_level := 0, flags := 0 }

/-- Test fixture: mint account bytes spelling out a US-only geographic
restriction. -/
def usOnlyMintData : List Nat := strBytes "ALLOWED_COUNTRIES:US ONLY"

lemma is_program_whitelisted_iff (r : HookRegistry) (pid : Nat) :
    r.is_program_whitelisted pid = true ↔
      pid ∈ r.whitelisted_programs.take r.program_count := by
  unfold HookRegistry.is_program_whitelisted
  split
  case isTrue h => simp [h]
  case isFalse h => simp [List.any_eq_true]

lemma findIdx?_pid_none_iff (l : List Nat) (pid : Nat) :
    l.findIdx? (fun p => p = pid) = none ↔ pid ∉ l := by
  rw [List.findIdx?_eq_none_iff]
  constructor
  · intro h hmem
    have := h pid hmem
    simp at this
  · intro h x hx
    simp only [decide_eq_false_iff_not]
    intro hEq
    exact h (hEq ▸ hx)

lemma shiftLeftFrom_length_aux (n : Nat) :
    ∀ (arr : List Nat) (s t : Nat), t - s ≤ n →
      (shiftLeftFrom arr s t).length = arr.length := by
  induction n with
  | zero =>
    intro arr s t h
    rw [shiftLeftFrom, if_neg (by omega)]
  | succ n ih =>
    intro arr s t h
    rw [shiftLeftFrom]
    split
    case isTrue hst =>
      rw [ih (arr.set s (arr.getD (s + 1) 0)) (s + 1) t (by omega), List.length_set]
    case isFalse hst => rfl

lemma shiftLeftFrom_length (arr : List Nat) (s t : Nat) :
    (shiftLeftFrom arr s t).length = arr.length :=
  shiftLeftFrom_length_aux (t - s) arr s t le_rfl

lemma shiftLeftFrom_getElem?_aux (n : Nat) :
    ∀ (arr : List Nat) (s t : Nat), t - s ≤ n → t < arr.length → ∀ (j : Nat),
      (shiftLeftFrom arr s t)[j]? = if s ≤ j ∧ j < t then arr[j + 1]? else arr[j]? := by
  induction n with
  | zero =>
    intro arr s t h _ j
    rw [shiftLeftFrom, if_neg (by omega), if_neg (by omega)]
  | succ n ih =>
    intro arr s t h ht j
    rw [shiftLeftFrom]
    split
    case isTrue hst =>
      have harr' : t < (arr.set s (arr.getD (s + 1) 0)).length := by
        rw [List.length_set]; exact ht
      rw [ih (arr.set s (arr.getD (s + 1) 0)) (s + 1) t (by omega) harr' j]
      by_cases h1 : s + 1 ≤ j ∧ j < t
      · rw [if_pos h1, if_pos (by omega), List.getElem?_set, if_neg (by omega)]
      · rw [if_neg h1]
        by_cases h2 : j = s
        · subst h2
          rw [List.getElem?_set, if_pos rfl, if_pos (by omega), if_pos (by omega)]
          rw [List.getD_eq_getElem?_getD, List.getElem?_eq_getElem (by omega)]
          rfl
        · rw [List.getElem?_set, if_neg (by omega), if_neg (by omega)]
    case isFalse hst =>
      rw [if_neg (by omega)]

lemma shiftLeftFrom_getElem? (arr : List Nat) (s t : Nat) (ht : t < arr.length) (j : Nat) :
    (shiftLeftFrom arr s t)[j]? = if s ≤ j ∧ j < t then arr[j + 1]? else arr[j]? :=
  shiftLeftFrom_getElem?_aux (t - s) arr s t le_rfl ht j

lemma take_set_self (l : List Nat) (n : Nat) (a : Nat) (h : n < l.length) :
    (l.set n a).take (n + 1) = l.take n ++ [a] := by
  induction l generalizing n with
  | nil => simp at h
  | cons x xs ih =>
    cases n with
    | zero => simp
    | succ m =>
      have hm : m < xs.length := by simpa using h
      simp [List.set, ih m hm]

lemma remove_program_ok_spec (r : HookRegistry) (pid idx : Nat)
    (hwf : r.wf)
    (hfind : (r.whitelisted_programs.take r.program_count).findIdx?
      (fun p => p = pid) = some idx) :
    ∃ r', r.remove_program pid = .ok r' ∧
      r'.authority = r.authority ∧
      r'.program_count = r.program_count - 1 ∧
      r'.whitelisted_programs.length = 32 ∧
      r'.whitelisted_programs.take r'.program_count
        = (r.whitelisted_programs.take r.program_count).eraseIdx idx ∧
      r'.whitelisted_programs.getD (r.program_count - 1) 0 = 0 ∧
      r'.wf := by
  obtain ⟨hlen, hc, hnd⟩ := hwf
  have hidxlt : idx < (r.whitelisted_programs.take r.program_count).length :=
    (List.findIdx?_eq_some_iff_getElem.mp hfind).1
  have htlen : (r.whitelisted_programs.take r.program_count).length = r.program_count := by
    rw [List.length_take, hlen]
    omega
  have hidx : idx < r.program_count := by omega
  have hcpos : 0 < r.program_count := by omega
  have hshiftlen : (shiftLeftFrom r.whitelisted_programs idx (r.program_count - 1)).length
      = r.whitelisted_programs.length :=
    shiftLeftFrom_length r.whitelisted_programs idx (r.program_count - 1)
  have hfinallen :
      ((shiftLeftFrom r.whitelisted_programs idx (r.program_count - 1)).set
        (r.program_count - 1) 0).length = 32 := by
    rw [List.length_set, hshiftlen, hlen]
  have heq : ((shiftLeftFrom r.whitelisted_programs idx (r.program_count - 1)).set
        (r.program_count - 1) 0).take (r.program_count - 1)
      = (r.whitelisted_programs.take r.program_count).eraseIdx idx := by
    apply List.ext_getElem?
    intro n
    rw [List.getElem?_take, List.getElem?_eraseIdx]
    by_cases hn : n < r.program_count - 1
    · rw [if_pos hn, List.getElem?_set, if_neg (by omega),
        shiftLeftFrom_getElem? r.whitelisted_programs idx (r.program_count - 1)
          (by omega) n]
      by_cases hni : n < idx
      · rw [if_neg (by omega), if_pos hni, List.getElem?_take, if_pos (by omega)]
      · rw [if_pos (by omega), if_neg hni, List.getElem?_take, if_pos (by omega)]
    · rw [if_neg hn]
      by_cases hni : n < idx
      · rw [if_pos hni, List.getElem?_take, if_neg (by omega)]
      · rw [if_neg hni, List.getElem?_take, if_neg (by omega)]
  refine ⟨⟨r.authority,
      (shiftLeftFrom r.whitelisted_programs idx (r.program_count - 1)).set
        (r.program_count - 1) 0,
      r.program_count - 1⟩, ?_, rfl, rfl, hfinallen, heq, ?_, ?_⟩
  · rw [HookRegistry.remove_program, hfind]
  · dsimp only
    rw [List.getD_eq_getElem?_getD, List.getElem?_set, if_pos rfl, if_pos (by omega)]
    rfl
  · refine ⟨hfinallen, by dsimp only; omega, ?_⟩
    dsimp only
    rw [heq]
    exact List.Nodup.sublist
      (List.eraseIdx_sublist (r.whitelisted_programs.take r.program_count) idx) hnd

lemma remove_program_not_found (r : HookRegistry) (pid : Nat)
    (h : (r.whitelisted_programs.take r.program_count).findIdx?
      (fun p => p = pid) = none) :
    r.remove_program pid = .error .HookProgramNotFound := by
  rw [HookRegistry.remove_program, h]

lemma add_program_ok_spec (r : HookRegistry) (pid : Nat)
    (hwf : r.wf) (hlt : r.program_count < 32)
    (hnw : r.is_program_whitelisted pid = false) :
    ∃ r', r.add_program pid = .ok r' ∧
      r'.program_count = r.program_count + 1 ∧
      r'.whitelisted_programs.take r'.program_count
        = r.whitelisted_programs.take r.program_count ++ [pid] ∧
      r'.wf := by
  obtain ⟨hlen, hc, hnd⟩ := hwf
  have hmem : pid ∉ r.whitelisted_programs.take r.program_count := by
    intro hm
    rw [(is_program_whitelisted_iff r pid).mpr hm] at hnw
    exact Bool.true_eq_false.mp hnw
  have htake : (r.whitelisted_programs.set r.program_count pid).take (r.program_count + 1)
      = r.whitelisted_programs.take r.program_count ++ [pid] :=
    take_set_self r.whitelisted_programs r.program_count pid (by omega)
  refine ⟨⟨r.authority, r.whitelisted_programs.set r.program_count pid,
      r.program_count + 1⟩, ?_, rfl, htake, ?_⟩
  · rw [HookRegistry.add_program, if_neg (by omega), if_neg (by simp [hnw])]
  · refine ⟨by dsimp only; rw [List.length_set, hlen], by dsimp only; omega, ?_⟩
    dsimp only
    rw [htake]
    simp only [List.nodup_append, List.nodup_cons, List.not_mem_nil, not_false_iff,
      List.nodup_nil, and_true, true_and]
    refine ⟨hnd, ?_⟩
    intro x hx hEq
    exact hmem ((List.mem_singleton.mp hEq) ▸ hx)

/-- C7: Gate Registry operations preserve the invariants (count within the
32-slot capacity, no duplicates among the first `program_count` slots), the
membership check ignores slots beyond `program_count` regardless of their
content, and `add_program` fails with `HookRegistryFull` at capacity and with
`HookProgramAlreadyWhitelisted` for a member, otherwise appending the id and
incrementing the count. -/
theorem C7_registry_invariants :
    (∀ (r : HookRegistry) (pid : Nat), r.wf →
      pid ∉ r.whitelisted_programs.take r.program_count →
      r.is_program_whitelisted pid = false) ∧
    (∀ (r : HookRegistry) (pid : Nat) (r' : HookRegistry), r.wf →
      r.add_program pid = .ok r' →
      r'.wf ∧ r'.program_count = r.program_count + 1 ∧
      r'.whitelisted_programs.take r'.program_count
        = r.whitelisted_programs.take r.program_count ++ [pid]) ∧
    (∀ (r : HookRegistry) (pid : Nat) (r' : HookRegistry), r.wf →
      r.remove_program pid = .ok r' → r'.wf) ∧
    (∀ (r : HookRegistry) (pid : Nat), r.wf → r.program_count = 32 →
      r.add_program pid = .error .HookRegistryFull) ∧
    (∀ (r : HookRegistry) (pid : Nat), r.program_count < 32 →
      r.is_program_whitelisted pid = true →
      r.add_program pid = .error .HookProgramAlreadyWhitelisted) := by
  refine ⟨?_, ?_, ?_, ?_, ?_⟩
  · intro r pid _ hnotmem
    cases h : r.is_program_whitelisted pid
    · rfl
    · exact absurd ((is_program_whitelisted_iff r pid).mp h) hnotmem
  · intro r pid r' hwf hok
    have h1 : r.program_count < 32 := by
      by_contra hge
      rw [HookRegistry.add_program, if_pos hge] at hok
      exact absurd hok (by simp)
    have h2 : r.is_program_whitelisted pid = false := by
      cases hwl : r.is_program_whitelisted pid
      · rfl
      · rw [HookRegistry.add_program, if_neg (not_not_intro h1), if_pos hwl] at hok
        exact absurd hok (by simp)
    obtain ⟨r'', hok'', hcount, htake, hwf'⟩ := add_program_ok_spec r pid hwf h1 h2
    rw [hok] at hok''
    injection hok'' with h
    rw [h]
    exact ⟨hwf', hcount, htake⟩
  · intro r pid r' hwf hok
    cases hfi : (r.whitelisted_programs.take r.program_count).findIdx?
        (fun p => p = pid) with
    | none =>
      rw [remove_program_not_found r pid hfi] at hok
      exact absurd hok (by simp)
    | some idx =>
      obtain ⟨r'', hok'', _, _, _, _, _, hwf'⟩ := remove_program_ok_spec r pid idx hwf hfi
      rw [hok] at hok''
      injection hok'' with h
      rw [h]
      exact hwf'
  · intro r pid _ hfull
    rw [HookRegistry.add_program, if_pos (by omega)]
  · intro r pid hlt hwl
    rw [HookRegistry.add_program, if_neg (not_not_intro hlt), if_pos hwl]

/-- Witness for C7 at concrete registries: a full registry rejects a 33rd
program, adding a member is rejected, and an identifier outside the live
prefix is not whitelisted. -/
theorem C7_registry_invariants_witness :
    fullRegistry.add_program 99 = .error .HookRegistryFull ∧
    registryWith42.add_program 42 = .error .HookProgramAlreadyWhitelisted ∧
    emptyRegistry.is_program_whitelisted 42 = false :=
  ⟨C7_registry_invariants.2.2.2.1 fullRegistry 99 (by decide) (by decide),
   C7_registry_invariants.2.2.2.2 registryWith42 42 (by decide) (by decide),
   C7_registry_invariants.1 emptyRegistry 42 (by decide) (by decide)⟩

/-- C8: `remove_program` fails with `HookProgramNotFound` exactly when the id
is absent from the first `program_count` slots; otherwise it removes the
first matching slot by shifting the later live entries left (preserving
their relative order, i.e. an index erasure of the member prefix), clears the
vacated trailing slot to the default id and decrements the count. -/
theorem C8_remove_program :
    (∀ (r : HookRegistry) (pid : Nat), r.wf →
      (r.remove_program pid = .error .HookProgramNotFound ↔
        pid ∉ r.whitelisted_programs.take r.program_count)) ∧
    (∀ (r : HookRegistry) (pid idx : Nat), r.wf →
      (r.whitelisted_programs.take r.program_count).findIdx?
        (fun p => p = pid) = some idx →
      ∃ r', r.remove_program pid = .ok r' ∧
        r'.program_count = r.program_count - 1 ∧
        r'.whitelisted_programs.take r'.program_count
          = (r.whitelisted_programs.take r.program_count).eraseIdx idx ∧
        r'.whitelisted_programs.getD (r.program_count - 1) 0 = 0) := by
  constructor
  · intro r pid hwf
    constructor
    · intro herr
      cases hfi : (r.whitelisted_programs.take r.program_count).findIdx?
          (fun p => p = pid) with
      | none => exact (findIdx?_pid_none_iff _ _).mp hfi
      | some idx =>
        obtain ⟨r', hok, _⟩ := remove_program_ok_spec r pid idx hwf hfi
        rw [hok] at herr
        exact absurd herr (by simp)
    · intro hnotmem
      exact remove_program_not_found r pid ((findIdx?_pid_none_iff _ _).mpr hnotmem)
  · intro r pid idx hwf hfind
    obtain ⟨r', hok, _, hcount, _, htake, hclear, _⟩ :=
      remove_program_ok_spec r pid idx hwf hfind
    exact ⟨r', hok, hcount, htake, hclear⟩

/-- Witness for C8 at a concrete two-member registry: removing a non-member
fails with `HookProgramNotFound`, and removing the first member shifts the
second into its slot and clears the trailing slot. -/
theorem C8_remove_program_witness :
    registryPair.remove_program 99 = .error .HookProgramNotFound ∧
    (∃ r', registryPair.remove_program 42 = .ok r' ∧
      r'.program_count = registryPair.program_count - 1 ∧
      r'.whitelisted_programs.take r'.program_count
        = (registryPair.whitelisted_programs.take registryPair.program_count).eraseIdx 0 ∧
      r'.whitelisted_programs.getD (registryPair.program_count - 1) 0 = 0) :=
  ⟨(C8_remove_program.1 registryPair 99 (by decide)).mpr (by decide),
   C8_remove_program.2 registryPair 42 0 (by decide) (by decide)⟩

/-- C9: trade-direction resolution returns `AtoB` exactly when the input token
account's mint equals the pool's token A mint, and `BtoA` in every other case
(the comparison never consults the token B mint, so a mint matching neither
reserve also resolves to `BtoA`). -/
theorem C9_trade_direction (inputMint tokenAMintKey : Nat) :
    (get_trade_direction inputMint tokenAMintKey = TradeDirection.AtoB ↔
      inputMint = tokenAMintKey) ∧
    (inputMint ≠ tokenAMintKey →
      get_trade_direction inputMint tokenAMintKey = TradeDirection.BtoA) := by
  constructor
  · constructor
    · intro h
      by_contra hne
      rw [get_trade_direction, if_neg hne] at h
      exact absurd h (by simp)
    · intro h
      rw [get_trade_direction, if_pos h]
  · intro hne
    rw [get_trade_direction, if_neg hne]

/-- Witness for C9: mint 1 against token A mint 2 (matching neither reserve
mint) resolves to `BtoA`. -/
theorem C9_trade_direction_witness :
    get_trade_direction 1 2 = TradeDirection.BtoA :=
  (C9_trade_direction 1 2).2 (by decide)

/-- C10: trading eligibility depends only on the KYC level and the
sanctioned / frozen / expired flag bits: two records agreeing on those agree
on eligibility (in particular the PEP bit and the risk score are ignored),
and a record of at least Basic level with those three flags clear is
eligible. -/
theorem C10_eligibility :
    (∀ k k' : UserKYC, k.kyc_level = k'.kyc_level →
      Nat.land k.flags UserKYC.FLAG_SANCTIONS = Nat.land k'.flags UserKYC.FLAG_SANCTIONS →
      Nat.land k.flags UserKYC.FLAG_FROZEN = Nat.land k'.flags UserKYC.FLAG_FROZEN →
      Nat.land k.flags UserKYC.FLAG_EXPIRED = Nat.land k'.flags UserKYC.FLAG_EXPIRED →
      k.is_eligible_for_trading = k'.is_eligible_for_trading) ∧
    (∀ k : UserKYC, UserKYC.BASIC ≤ k.kyc_level →
      k.is_sanctioned = false → k.is_frozen = false → k.is_expired = false →
      k.is_eligible_for_trading = true) := by
  constructor
  · intro k k' hl h1 h4 h8
    simp only [UserKYC.is_eligible_for_trading, UserKYC.is_sanctioned,
      UserKYC.is_frozen, UserKYC.is_expired, hl, h1, h4, h8]
  · intro k hl h1 h4 h8
    simp only [UserKYC.is_eligible_for_trading, h1, h4, h8,
      decide_eq_true hl, Bool.not_false, Bool.and_true, Bool.and_self]

/-- Witness for C10: a Basic-level record with the PEP flag set and maximal
risk score is eligible, and agrees with its PEP-free, zero-risk twin. -/
theorem C10_eligibility_witness :
    ({ kycEligibleCN with risk_score := 100 } : UserKYC).is_eligible_for_trading = true ∧
    kycEligibleCN.is_eligible_for_trading
      = ({ kycEligibleCN with flags := 0, risk_score := 0 } : UserKYC).is_eligible_for_trading :=
  ⟨C10_eligibility.2 { kycEligibleCN with risk_score := 100 }
      (by decide) (by decide) (by decide) (by decide),
   C10_eligibility.1 kycEligibleCN { kycEligibleCN with flags := 0, risk_score := 0 }
      (by decide) (by decide) (by decide) (by decide)⟩

/-- C4: when the transfer-fee-excluded output is below the caller's
`minimum_amount_out`, the swap fails with `ExceededSlippage`; no movement is
invoked and, by instruction atomicity, the error outcome reverts all pool
state. -/
theorem C4_slippage_rejection (env : SwapEnv) (exIn exOut : TransferFeeExcludedAmount)
    (fm : FeeMode) (sr : SwapResult)
    (hAccess : env.canSwap = true)
    (hExIn : calculate_transfer_fee_excluded_amount env.tokenInMint.transferFee
      env.amount_in = .ok exIn)
    (hPos : 0 < exIn.amount)
    (hUpd : env.updatePreSwap = .ok ())
    (hFee : env.getFeeMode = .ok fm)
    (hSr : env.getSwapResult = .ok sr)
    (hExOut : calculate_transfer_fee_excluded_amount env.tokenOutMint.transferFee
      sr.output_amount = .ok exOut)
    (hLt : exOut.amount < env.minimum_amount_out) :
    handle_swap env = ([], .error .ExceededSlippage) := by
  simp only [handle_swap, hAccess, hExIn, hUpd, hFee, hSr, hExOut]
  rw [if_neg (by simp), if_neg (by omega), if_pos (by omega)]

/-- Witness for C4: a hook-free swap priced at 999 against a minimum of 1000
fails with `ExceededSlippage` and invokes no movement. -/
theorem C4_slippage_rejection_witness :
    handle_swap envPlainSlippage = ([], .error .ExceededSlippage) :=
  C4_slippage_rejection envPlainSlippage ⟨1000, 0⟩ ⟨999, 0⟩ ⟨true⟩ ⟨999, 0⟩
    rfl rfl (by decide) rfl rfl rfl rfl (by decide)

lemma whitelist_gate_value (reg : HookRegistry) (ip op : Option Nat) :
    ((∃ pid, (ip = some pid ∨ op = some pid) ∧ reg.is_program_whitelisted pid = false) →
      (do
        checkHookProgram reg ip
        checkHookProgram reg op : Except PoolError Unit) = .error .UnauthorizedHookProgram) ∧
    ((∀ pid, ip = some pid ∨ op = some pid → reg.is_program_whitelisted pid = true) →
      (do
        checkHookProgram reg ip
        checkHookProgram reg op : Except PoolError Unit) = .ok ()) := by
  constructor
  · rintro ⟨pid, hor, hfalse⟩
    cases hor with
    | inl h =>
      subst h
      simp only [checkHookProgram, hfalse]
      rfl
    | inr h =>
      subst h
      cases ip with
      | none =>
        simp only [checkHookProgram, hfalse]
        rfl
      | some p1 =>
        by_cases hw1 : reg.is_program_whitelisted p1 = true
        · simp only [checkHookProgram, hw1, hfalse, if_true]
          rfl
        · simp only [checkHookProgram, if_neg hw1, hfalse]
          rfl
  · intro hall
    have h1 : checkHookProgram reg ip = .ok () := by
      cases ip with
      | none => rfl
      | some p => simp [checkHookProgram, hall p (Or.inl rfl)]
    have h2 : checkHookProgram reg op = .ok () := by
      cases op with
      | none => rfl
      | some p => simp [checkHookProgram, hall p (Or.inr rfl)]
    rw [show (do
      checkHookProgram reg ip
      checkHookProgram reg op : Except PoolError Unit)
        = checkHookProgram reg ip >>= fun _ => checkHookProgram reg op from rfl, h1, h2]
    rfl

/-- C2: when either traded asset declares a transfer-hook program, the swap
fails with `MissingHookRegistry` if no registry account was supplied, fails
with `UnauthorizedHookProgram` unless every declared hook program is
whitelisted in the supplied registry, and only with the gate satisfied does
the first balance movement get invoked. -/
theorem C2_mandatory_whitelist_gate (env : SwapEnv) (exIn exOut : TransferFeeExcludedAmount)
    (fm : FeeMode) (sr : SwapResult)
    (hAccess : env.canSwap = true)
    (hExIn : calculate_transfer_fee_excluded_amount env.tokenInMint.transferFee
      env.amount_in = .ok exIn)
    (hPos : 0 < exIn.amount)
    (hUpd : env.updatePreSwap = .ok ())
    (hFee : env.getFeeMode = .ok fm)
    (hSr : env.getSwapResult = .ok sr)
    (hExOut : calculate_transfer_fee_excluded_amount env.tokenOutMint.transferFee
      sr.output_amount = .ok exOut)
    (hMin : env.minimum_amount_out ≤ exOut.amount)
    (hHookMin : hook_minimum_amount env.minimum_amount_out ≤ exOut.amount)
    (hApply : env.applySwapResult = .ok ())
    (hHook : (has_transfer_hook env.tokenInMint).isSome = true ∨
      (has_transfer_hook env.tokenOutMint).isSome = true) :
    (env.hookRegistry = none → handle_swap env = ([], .error .MissingHookRegistry)) ∧
    (∀ reg, env.hookRegistry = some reg →
      (∃ pid, (has_transfer_hook env.tokenInMint = some pid ∨
          has_transfer_hook env.tokenOutMint = some pid) ∧
        reg.is_program_whitelisted pid = false) →
      handle_swap env = ([], .error .UnauthorizedHookProgram)) ∧
    (∀ reg, env.hookRegistry = some reg →
      (∀ pid, has_transfer_hook env.tokenInMint = some pid ∨
          has_transfer_hook env.tokenOutMint = some pid →
        reg.is_program_whitelisted pid = true) →
      (handle_swap env).1.head?
        = some (TransferEvent.userToVault env.tokenInMint.key env.amount_in)) := by
  refine ⟨?_, ?_, ?_⟩
  · intro hReg
    simp only [handle_swap, hAccess, hExIn, hUpd, hFee, hSr, hExOut, hApply, hReg]
    rw [if_neg (by simp), if_neg (by omega), if_neg (by omega), if_pos hHook,
      if_neg (by omega), if_pos hHook]
  · intro reg hReg hex
    simp only [handle_swap, hAccess, hExIn, hUpd, hFee, hSr, hExOut, hApply, hReg]
    rw [if_neg (by simp), if_neg (by omega), if_neg (by omega), if_pos hHook,
      if_neg (by omega), if_pos hHook,
      (whitelist_gate_value reg (has_transfer_hook env.tokenInMint)
        (has_transfer_hook env.tokenOutMint)).1 hex]
  · intro reg hReg hall
    simp only [handle_swap, hAccess, hExIn, hUpd, hFee, hSr, hExOut, hApply, hReg]
    rw [if_neg (by simp), if_neg (by omega), if_neg (by omega), if_pos hHook,
      if_neg (by omega), if_pos hHook,
      (whitelist_gate_value reg (has_transfer_hook env.tokenInMint)
        (has_transfer_hook env.tokenOutMint)).2 hall]
    cases hIT : env.inputTransferResult with
    | error e => rfl
    | ok u =>
      cases hOT : env.outputTransferResult with
      | error e => rfl
      | ok v =>
        cases hRf : env.hasReferral with
        | false => rfl
        | true =>
          cases hRT : env.referralTransferResult with
          | error e => rfl
          | ok w => rfl

/-- Witness for C2 at concrete hook-enabled swaps: no registry supplied gives
`MissingHookRegistry`, an empty registry gives `UnauthorizedHookProgram`, and
a whitelisting registry lets the input movement proceed. -/
theorem C2_mandatory_whitelist_gate_witness :
    handle_swap envMissingRegistry = ([], .error .MissingHookRegistry) ∧
    handle_swap envUnauthorized = ([], .error .UnauthorizedHookProgram) ∧
    (handle_swap envHookPass).1.head? = some (TransferEvent.userToVault 100 1000) := by
  refine ⟨?_, ?_, ?_⟩
  · exact (C2_mandatory_whitelist_gate envMissingRegistry ⟨1000, 0⟩ ⟨1500, 0⟩ ⟨true⟩ ⟨1500, 0⟩
      rfl rfl (by decide) rfl rfl rfl rfl (by decide) (by decide) rfl (Or.inl rfl)).1 rfl
  · refine (C2_mandatory_whitelist_gate envUnauthorized ⟨1000, 0⟩ ⟨1500, 0⟩ ⟨true⟩ ⟨1500, 0⟩
      rfl rfl (by decide) rfl rfl rfl rfl (by decide) (by decide) rfl
      (Or.inl rfl)).2.1 emptyRegistry rfl ⟨42, Or.inl rfl, by decide⟩
  · refine (C2_mandatory_whitelist_gate envHookPass ⟨1000, 0⟩ ⟨1500, 0⟩ ⟨true⟩ ⟨1500, 0⟩
      rfl rfl (by decide) rfl rfl rfl rfl (by decide) (by decide) rfl
      (Or.inl rfl)).2.2 registryWith42 rfl ?_
    intro pid h
    rcases h with h | h
    · have h2 : 42 = pid := by
        have h3 : some 42 = some pid := h
        injection h3
      rw [← h2]
      decide
    · exact Option.noConfusion h

/-- Counterexample to C1: with minimum out 1000, a fee-excluded output of 1005
meets the claimed `minimumOut * 1.005` threshold (1005), yet the hook-enabled
swap fails with `InvalidHookSlippageTolerance`, because the code multiplies by
(100 + 50) / 100 = 1.5, not 1.005. -/
theorem C1_counterexample :
    envHookBase.minimum_amount_out * 1005 / 1000 ≤ 1005 ∧
    handle_swap envHookBase = ([], .error .InvalidHookSlippageTolerance) := by
  constructor
  · decide
  · rfl

/-- C1 (amended): for hook-enabled swaps the tightened threshold is
`minimum_amount_out saturating-times (100 + 50), divided by 100` — a 1.5
multiplier, not 1.005 — and the swap fails with
`InvalidHookSlippageTolerance` exactly when the fee-excluded output falls
below it, proceeding to settlement otherwise. -/
theorem C1_amended_hook_slippage (env : SwapEnv) (exIn exOut : TransferFeeExcludedAmount)
    (fm : FeeMode) (sr : SwapResult)
    (hAccess : env.canSwap = true)
    (hExIn : calculate_transfer_fee_excluded_amount env.tokenInMint.transferFee
      env.amount_in = .ok exIn)
    (hPos : 0 < exIn.amount)
    (hUpd : env.updatePreSwap = .ok ())
    (hFee : env.getFeeMode = .ok fm)
    (hSr : env.getSwapResult = .ok sr)
    (hExOut : calculate_transfer_fee_excluded_amount env.tokenOutMint.transferFee
      sr.output_amount = .ok exOut)
    (hMin : env.minimum_amount_out ≤ exOut.amount)
    (hHook : (has_transfer_hook env.tokenInMint).isSome = true ∨
      (has_transfer_hook env.tokenOutMint).isSome = true) :
    (∀ m : Nat, hook_minimum_amount m = min (m * (100 + 50)) (2 ^ 64 - 1) / 100) ∧
    (exOut.amount < hook_minimum_amount env.minimum_amount_out →
      handle_swap env = ([], .error .InvalidHookSlippageTolerance)) ∧
    (hook_minimum_amount env.minimum_amount_out ≤ exOut.amount →
      env.applySwapResult = .ok () →
      ∀ reg, env.hookRegistry = some reg →
      (∀ pid, has_transfer_hook env.tokenInMint = some pid ∨
          has_transfer_hook env.tokenOutMint = some pid →
        reg.is_program_whitelisted pid = true) →
      env.inputTransferResult = .ok () →
      env.outputTransferResult = .ok () →
      env.hasReferral = false →
      handle_swap env
        = ([TransferEvent.userToVault env.tokenInMint.key env.amount_in,
            TransferEvent.vaultToUser env.tokenOutMint.key sr.output_amount], .ok ())) := by
  refine ⟨fun m => rfl, ?_, ?_⟩
  · intro hlt
    simp only [handle_swap, hAccess, hExIn, hUpd, hFee, hSr, hExOut]
    rw [if_neg (by simp), if_neg (by omega), if_neg (by omega), if_pos hHook,
      if_pos (by omega)]
  · intro hHookMin hApply reg hReg hall hIT hOT hNoRef
    simp only [handle_swap, hAccess, hExIn, hUpd, hFee, hSr, hExOut, hApply, hReg,
      hIT, hOT, hNoRef]
    rw [if_neg (by simp), if_neg (by omega), if_neg (by omega), if_pos hHook,
      if_neg (by omega), if_pos hHook,
      (whitelist_gate_value reg (has_transfer_hook env.tokenInMint)
        (has_transfer_hook env.tokenOutMint)).2 hall]
    rfl

/-- Witness for the amended C1: output 1005 < 1500 fails, output 1500 = 1500
settles. -/
theorem C1_amended_hook_slippage_witness :
    handle_swap envHookBase = ([], .error .InvalidHookSlippageTolerance) ∧
    handle_swap envHookPass
      = ([TransferEvent.userToVault 100 1000, TransferEvent.vaultToUser 200 1500],
          .ok ()) := by
  constructor
  · exact (C1_amended_hook_slippage envHookBase ⟨1000, 0⟩ ⟨1005, 0⟩ ⟨true⟩ ⟨1005, 0⟩
      rfl rfl (by decide) rfl rfl rfl rfl (by decide) (Or.inl rfl)).2.1 (by decide)
  · refine (C1_amended_hook_slippage envHookPass ⟨1000, 0⟩ ⟨1500, 0⟩ ⟨true⟩ ⟨1500, 0⟩
      rfl rfl (by decide) rfl rfl rfl rfl (by decide) (Or.inl rfl)).2.2
      (by decide) rfl registryWith42 rfl ?_ rfl rfl rfl
    intro pid h
    rcases h with h | h
    · have h2 : 42 = pid := by
        have h3 : some 42 = some pid := h
        injection h3
      rw [← h2]
      decide
    · exact Option.noConfusion h

/-- Counterexample to C5: with `minimum_amount_out = 2^63` the product
`minimum_amount_out * 150` exceeds the u64 range, yet the hook-enabled swap
does not fail with `MathOverflow` — the saturating multiplication clamps and
the swap settles. -/
theorem C5_counterexample :
    2 ^ 64 - 1 < envSaturating.minimum_amount_out * (100 + 50) ∧
    handle_swap envSaturating
      = ([TransferEvent.userToVault 100 1000,
          TransferEvent.vaultToUser 200 (2 ^ 64 - 1)], .ok ()) := by
  constructor
  · decide
  · rfl

/-- C5 (amended): the hook-enabled minimum is computed with a saturating
multiplication — on u64 overflow it clamps to `u64::MAX` (then divides by
100) instead of failing — while the transfer-fee arithmetic does fail
explicitly with `MathOverflow` on a u64 checked-add overflow. -/
theorem C5_amended_saturation :
    (∀ m : Nat, hook_minimum_amount m = min (m * (100 + 50)) (2 ^ 64 - 1) / 100) ∧
    (∀ m : Nat, 2 ^ 64 - 1 < m * (100 + 50) →
      hook_minimum_amount m = (2 ^ 64 - 1) / 100) ∧
    (∀ (tf : TransferFee) (y : Nat), tf.transferFeeBasisPoints = MAX_FEE_BASIS_POINTS →
      y ≠ 0 → 2 ^ 64 - 1 < y + tf.maximumFee →
      calculate_transfer_fee_included_amount (some tf) y = .error .MathOverflow) := by
  refine ⟨fun m => rfl, ?_, ?_⟩
  · intro m h
    rw [hook_minimum_amount, u64SaturatingMul, U64MAX, min_eq_right (le_of_lt h)]
  · intro tf y hbp hy hlt
    unfold calculate_transfer_fee_included_amount
    rw [if_neg hy]
    simp only [if_pos hbp]
    rw [show u64checkedAdd y tf.maximumFee = none from by
      rw [u64checkedAdd, if_neg (by simp only [U64MAX]; omega)]]

/-- Witness for the amended C5: the threshold saturates at `2^63`, and a
100%-fee schedule whose maximum fee overflows the checked add fails with
`MathOverflow`. -/
theorem C5_amended_saturation_witness :
    hook_minimum_amount (2 ^ 63) = (2 ^ 64 - 1) / 100 ∧
    calculate_transfer_fee_included_amount (some ⟨10000, 2 ^ 64 - 1⟩) 1
      = .error .MathOverflow :=
  ⟨C5_amended_saturation.2.1 (2 ^ 63) (by decide),
   C5_amended_saturation.2.2 ⟨10000, 2 ^ 64 - 1⟩ 1 rfl (by decide) (by decide)⟩

/-- C3 evidence: the KYC half of the gate behaves as claimed (sanctioned,
frozen, expired and sub-Basic users are rejected), but the geographic half is
inert — `extract_rwa_metadata` ignores the parsed metadata and returns no
restriction fields, so an eligible user whose country (CN) is outside the
asset's declared allowed list (US) still passes the hook. -/
theorem C3_geo_restrictions_unenforced :
    (∀ m : TokenMetadata, extract_rwa_metadata m
      = ⟨none, none, none, none, none, none⟩) ∧
    kycEligibleCN.get_country_str = strBytes "CN" ∧
    handle_transfer_hook kycEligibleCN usOnlyMintData = .ok () ∧
    handle_transfer_hook kycSanctioned usOnlyMintData = .error .UserSanctioned ∧
    handle_transfer_hook kycFrozen usOnlyMintData = .error .UserAccountFrozen ∧
    handle_transfer_hook kycExpiredRecord usOnlyMintData = .error .UserKycExpired ∧
    handle_transfer_hook kycUnverified usOnlyMintData = .error .UserNotKycVerified :=
  ⟨fun _ => rfl, rfl, rfl, rfl, rfl, rfl, rfl⟩

lemma ceil_div_le (a c m : Nat) (hm : 0 < m) (h : a ≤ c * m) : (a + m - 1) / m ≤ c := by
  by_contra hgt
  push_neg at hgt
  have h2 : (c + 1) * m ≤ a + m - 1 := (Nat.le_div_iff_mul_le hm).mp hgt
  have h3 : (c + 1) * m = c * m + m := by ring
  omega

lemma le_ceil_div_mul (a m : Nat) (hm : 0 < m) : a ≤ ((a + m - 1) / m) * m := by
  have h1 := Nat.div_add_mod (a + m - 1) m
  have h2 : (a + m - 1) % m < m := Nat.mod_lt _ hm
  have h3 : ((a + m - 1) / m) * m = m * ((a + m - 1) / m) := Nat.mul_comm _ _
  omega

lemma ceil_div_gt (a m M : Nat) (hm : 0 < m) (h : M < (a + m - 1) / m) : M * m < a := by
  have h2 : (M + 1) * m ≤ a + m - 1 := (Nat.le_div_iff_mul_le hm).mp h
  have h3 : (M + 1) * m = M * m + m := by ring
  omega

lemma calculate_fee_eq (tf : TransferFee) (x : Nat) (hx : x ≤ U64MAX)
    (hb : tf.transferFeeBasisPoints ≤ MAX_FEE_BASIS_POINTS) :
    tf.calculate_fee x = some (feeValue tf x) := by
  unfold TransferFee.calculate_fee feeValue
  split
  · rfl
  case isFalse hcond =>
    have hmul : x * tf.transferFeeBasisPoints ≤ U128MAX := by
      calc x * tf.transferFeeBasisPoints ≤ U64MAX * MAX_FEE_BASIS_POINTS :=
            Nat.mul_le_mul hx hb
        _ ≤ U128MAX := by decide
    have h1 : u128checkedMul x tf.transferFeeBasisPoints
        = some (x * tf.transferFeeBasisPoints) := by
      rw [u128checkedMul, if_pos hmul]
    have h2 : u128checkedAdd (x * tf.transferFeeBasisPoints) ONE_IN_BASIS_POINTS
        = some (x * tf.transferFeeBasisPoints + ONE_IN_BASIS_POINTS) := by
      rw [u128checkedAdd, if_pos]
      have hc : U64MAX * MAX_FEE_BASIS_POINTS + ONE_IN_BASIS_POINTS ≤ U128MAX := by decide
      have hd := Nat.mul_le_mul hx hb
      omega
    have h3 : u128checkedSub (x * tf.transferFeeBasisPoints + ONE_IN_BASIS_POINTS) 1
        = some (x * tf.transferFeeBasisPoints + ONE_IN_BASIS_POINTS - 1) := by
      rw [u128checkedSub, if_pos (by simp [ONE_IN_BASIS_POINTS])]
    simp only [Option.bind_eq_bind, h1, Option.some_bind, h2, h3]

lemma feeValue_le (tf : TransferFee) (x : Nat)
    (hb : tf.transferFeeBasisPoints ≤ MAX_FEE_BASIS_POINTS) :
    feeValue tf x ≤ x := by
  unfold feeValue
  split
  · omega
  case isFalse hcond =>
    have hceil : (x * tf.transferFeeBasisPoints + ONE_IN_BASIS_POINTS - 1)
        / ONE_IN_BASIS_POINTS ≤ x := by
      apply ceil_div_le _ _ _ (by decide)
      have hd : x * tf.transferFeeBasisPoints ≤ x * ONE_IN_BASIS_POINTS :=
        Nat.mul_le_mul_left x (by simpa [MAX_FEE_BASIS_POINTS, ONE_IN_BASIS_POINTS] using hb)
      omega
    omega

lemma feeValue_mono (tf : TransferFee) (x y : Nat) (h : x ≤ y) :
    feeValue tf x ≤ feeValue tf y := by
  unfold feeValue
  by_cases hb0 : tf.transferFeeBasisPoints = 0
  · simp [hb0]
  · by_cases hx0 : x = 0
    · rw [if_pos (Or.inr hx0)]
      exact Nat.zero_le _
    · have hy0 : y ≠ 0 := by omega
      rw [if_neg (by tauto), if_neg (by tauto)]
      apply min_le_min _ le_rfl
      apply Nat.div_le_div_right
      have hd := Nat.mul_le_mul_right tf.transferFeeBasisPoints h
      omega

lemma pre_cap_le (x F M b B : Nat) (hb1 : 0 < b) (hb2 : b < B)
    (hFle : F ≤ x) (_hy0 : x - F ≠ 0)
    (hFmin : F = min ((x * b + B - 1) / B) M)
    (hbr : M ≤ ((x - F) * B + (B - b) - 1) / (B - b) - (x - F)) :
    x - F + M ≤ x := by
  by_cases hcap : (x * b + B - 1) / B ≤ M
  · have hFeq : F = (x * b + B - 1) / B := by rw [hFmin, min_eq_left hcap]
    have hxb : x * b ≤ ((x * b + B - 1) / B) * B := le_ceil_div_mul (x * b) B (by omega)
    have hkey : (x - F) * B ≤ x * (B - b) := by
      rw [Nat.sub_mul, Nat.mul_sub]
      have h1 : x * b ≤ F * B := by rw [hFeq]; exact hxb
      have h2 : F * B ≤ x * B := Nat.mul_le_mul_right _ hFle
      omega
    have hraw : ((x - F) * B + (B - b) - 1) / (B - b) ≤ x :=
      ceil_div_le _ _ _ (by omega) hkey
    omega
  · have hFeq : F = M := by rw [hFmin, min_eq_right (by omega)]
    omega

lemma pre_quot_le (x F M b B : Nat) (hb1 : 0 < b) (hb2 : b < B)
    (hFle : F ≤ x) (_hy0 : x - F ≠ 0)
    (hFmin : F = min ((x * b + B - 1) / B) M)
    (hbr : ((x - F) * B + (B - b) - 1) / (B - b) - (x - F) < M) :
    ((x - F) * B + (B - b) - 1) / (B - b) ≤ x := by
  by_cases hcap : (x * b + B - 1) / B ≤ M
  · have hFeq : F = (x * b + B - 1) / B := by rw [hFmin, min_eq_left hcap]
    have hxb : x * b ≤ ((x * b + B - 1) / B) * B := le_ceil_div_mul (x * b) B (by omega)
    have hkey : (x - F) * B ≤ x * (B - b) := by
      rw [Nat.sub_mul, Nat.mul_sub]
      have h1 : x * b ≤ F * B := by rw [hFeq]; exact hxb
      have h2 : F * B ≤ x * B := Nat.mul_le_mul_right _ hFle
      omega
    exact ceil_div_le _ _ _ (by omega) hkey
  · exfalso
    have hFeq : F = M := by rw [hFmin, min_eq_right (by omega)]
    have hMB : M * B < x * b := ceil_div_gt (x * b) B M (by omega) (by omega)
    have hge : (x - F) * B ≤ (((x - F) * B + (B - b) - 1) / (B - b)) * (B - b) :=
      le_ceil_div_mul _ _ (by omega)
    have hragey : x - F ≤ ((x - F) * B + (B - b) - 1) / (B - b) := by
      rw [Nat.le_div_iff_mul_le (by omega)]
      have h1 : (x - F) * (B - b) ≤ (x - F) * B := Nat.mul_le_mul_left _ (by omega)
      omega
    have hsm : (((x - F) * B + (B - b) - 1) / (B - b) - (x - F)) * (B - b)
        = (((x - F) * B + (B - b) - 1) / (B - b)) * (B - b) - (x - F) * (B - b) :=
      Nat.sub_mul _ _ _
    have h1 : (x - F) * b = (x - F) * B - (x - F) * (B - b) := by
      rw [← Nat.mul_sub]
      congr 1
      omega
    have h2 : (x - F) * b ≤ (((x - F) * B + (B - b) - 1) / (B - b) - (x - F)) * (B - b) := by
      omega
    have h4 : (x - F) * b = x * b - F * b := Nat.sub_mul _ _ _
    have h5 : M * (B - b) = M * B - M * b := Nat.mul_sub _ _ _
    have h6 : F * b = M * b := by rw [hFeq]
    have h7 : M * b ≤ M * B := Nat.mul_le_mul_left M (by omega)
    have h3 : M * (B - b) < (x - F) * b := by omega
    have h9 : M * (B - b) < (((x - F) * B + (B - b) - 1) / (B - b) - (x - F)) * (B - b) :=
      lt_of_lt_of_le h3 h2
    have h10 : M < ((x - F) * B + (B - b) - 1) / (B - b) - (x - F) :=
      Nat.lt_of_mul_lt_mul_right h9
    omega

lemma calculate_pre_fee_amount_le (tf : TransferFee) (x pre : Nat)
    (hb : tf.transferFeeBasisPoints ≤ MAX_FEE_BASIS_POINTS)
    (hbB : tf.transferFeeBasisPoints ≠ ONE_IN_BASIS_POINTS)
    (hx : x ≤ U64MAX)
    (hy0 : x - feeValue tf x ≠ 0)
    (hpre : tf.calculate_pre_fee_amount (x - feeValue tf x) = some pre) :
    pre ≤ x := by
  have hF := feeValue_le tf x hb
  unfold TransferFee.calculate_pre_fee_amount at hpre
  by_cases hb0 : tf.transferFeeBasisPoints = 0
  · rw [if_pos hb0] at hpre
    injection hpre with h
    omega
  · rw [if_neg hb0, if_neg hy0, if_neg hbB] at hpre
    have hbltB : tf.transferFeeBasisPoints < ONE_IN_BASIS_POINTS := by
      have h1 : MAX_FEE_BASIS_POINTS = ONE_IN_BASIS_POINTS := by decide
      omega
    have hy0le : x - feeValue tf x ≤ U64MAX := by omega
    have hnum : u128checkedMul (x - feeValue tf x) ONE_IN_BASIS_POINTS
        = some ((x - feeValue tf x) * ONE_IN_BASIS_POINTS) := by
      rw [u128checkedMul, if_pos]
      calc (x - feeValue tf x) * ONE_IN_BASIS_POINTS
          ≤ U64MAX * ONE_IN_BASIS_POINTS := Nat.mul_le_mul_right _ hy0le
        _ ≤ U128MAX := by decide
    have haddOk : (x - feeValue tf x) * ONE_IN_BASIS_POINTS
        + (ONE_IN_BASIS_POINTS - tf.transferFeeBasisPoints) ≤ U128MAX := by
      have h1 : (x - feeValue tf x) * ONE_IN_BASIS_POINTS
          ≤ U64MAX * ONE_IN_BASIS_POINTS := Nat.mul_le_mul_right _ hy0le
      have h2 : U64MAX * ONE_IN_BASIS_POINTS + ONE_IN_BASIS_POINTS ≤ U128MAX := by decide
      have h3 : ONE_IN_BASIS_POINTS - tf.transferFeeBasisPoints ≤ ONE_IN_BASIS_POINTS := by
        omega
      omega
    have hadd : u128checkedAdd ((x - feeValue tf x) * ONE_IN_BASIS_POINTS)
        (ONE_IN_BASIS_POINTS - tf.transferFeeBasisPoints)
        = some ((x - feeValue tf x) * ONE_IN_BASIS_POINTS
            + (ONE_IN_BASIS_POINTS - tf.transferFeeBasisPoints)) := by
      rw [u128checkedAdd, if_pos haddOk]
    have hsub : u128checkedSub ((x - feeValue tf x) * ONE_IN_BASIS_POINTS
          + (ONE_IN_BASIS_POINTS - tf.transferFeeBasisPoints)) 1
        = some ((x - feeValue tf x) * ONE_IN_BASIS_POINTS
            + (ONE_IN_BASIS_POINTS - tf.transferFeeBasisPoints) - 1) := by
      rw [u128checkedSub, if_pos (by omega)]
    have hrawge : (x - feeValue tf x)
        ≤ ((x - feeValue tf x) * ONE_IN_BASIS_POINTS
            + (ONE_IN_BASIS_POINTS - tf.transferFeeBasisPoints) - 1)
          / (ONE_IN_BASIS_POINTS - tf.transferFeeBasisPoints) := by
      rw [Nat.le_div_iff_mul_le (by omega)]
      have h1 : (x - feeValue tf x) * (ONE_IN_BASIS_POINTS - tf.transferFeeBasisPoints)
          ≤ (x - feeValue tf x) * ONE_IN_BASIS_POINTS :=
        Nat.mul_le_mul_left _ (by omega)
      omega
    have hdiff : u128checkedSub (((x - feeValue tf x) * ONE_IN_BASIS_POINTS
          + (ONE_IN_BASIS_POINTS - tf.transferFeeBasisPoints) - 1)
          / (ONE_IN_BASIS_POINTS - tf.transferFeeBasisPoints)) (x - feeValue tf x)
        = some (((x - feeValue tf x) * ONE_IN_BASIS_POINTS
            + (ONE_IN_BASIS_POINTS - tf.transferFeeBasisPoints) - 1)
            / (ONE_IN_BASIS_POINTS - tf.transferFeeBasisPoints) - (x - feeValue tf x)) := by
      rw [u128checkedSub, if_pos hrawge]
    simp only [Option.bind_eq_bind, hnum, Option.some_bind, hadd, hsub, hdiff] at hpre
    have hx0 : x ≠ 0 := by omega
    have hFval : feeValue tf x
        = min ((x * tf.transferFeeBasisPoints + ONE_IN_BASIS_POINTS - 1)
            / ONE_IN_BASIS_POINTS) tf.maximumFee := by
      unfold feeValue
      rw [if_neg (by tauto)]
    split at hpre
    · rename_i hbr
      rw [u64checkedAdd] at hpre
      split at hpre
      · rename_i hle
        injection hpre with h
        have hcap := pre_cap_le x (feeValue tf x) tf.maximumFee
          tf.transferFeeBasisPoints ONE_IN_BASIS_POINTS
          (by omega) hbltB hF hy0 hFval hbr
        omega
      · exact absurd hpre (by simp)
    · rename_i hbr
      split at hpre
      · rename_i hle
        injection hpre with h
        have hquot := pre_quot_le x (feeValue tf x) tf.maximumFee
          tf.transferFeeBasisPoints ONE_IN_BASIS_POINTS
          (by omega) hbltB hF hy0 hFval (by omega)
        omega
      · exact absurd hpre (by simp)

/-- C6 (amended): for a transfer-fee schedule with basis points within the
protocol bound and a u64 amount x, fee exclusion always succeeds, and whenever
the inverse conversion on the fee-excluded amount succeeds it returns an
amount that is at most x (not necessarily equal - ceiling rounding makes
exclusion non-injective) whose own fee exclusion recovers exactly the
fee-excluded amount and the inverse fee. -/
theorem C6_round_trip (tf : TransferFee) (x : Nat)
    (hb : tf.transferFeeBasisPoints ≤ MAX_FEE_BASIS_POINTS)
    (hx : x ≤ U64MAX) :
    ∃ exc : TransferFeeExcludedAmount,
      calculate_transfer_fee_excluded_amount (some tf) x = .ok exc ∧
      ∀ inc : TransferFeeIncludedAmount,
        calculate_transfer_fee_included_amount (some tf) exc.amount = .ok inc →
        inc.amount ≤ x ∧
        calculate_transfer_fee_excluded_amount (some tf) inc.amount
          = .ok ⟨exc.amount, inc.transfer_fee⟩ := by
  have hF := feeValue_le tf x hb
  have hsub : u64checkedSub x (feeValue tf x) = some (x - feeValue tf x) := by
    rw [u64checkedSub, if_pos hF]
  have hexc : calculate_transfer_fee_excluded_amount (some tf) x
      = .ok ⟨x - feeValue tf x, feeValue tf x⟩ := by
    simp only [calculate_transfer_fee_excluded_amount, calculate_fee_eq tf x hx hb, hsub]
  refine ⟨⟨x - feeValue tf x, feeValue tf x⟩, hexc, ?_⟩
  intro inc hinc
  by_cases hy0 : x - feeValue tf x = 0
  · rw [show calculate_transfer_fee_included_amount (some tf) (x - feeValue tf x)
        = .ok ⟨0, 0⟩ from by
      unfold calculate_transfer_fee_included_amount
      rw [if_pos hy0]] at hinc
    injection hinc with h
    subst h
    have hfee0 : feeValue tf 0 = 0 := by
      unfold feeValue
      rw [if_pos (Or.inr rfl)]
    have hsub0 : u64checkedSub 0 0 = some 0 := by
      rw [u64checkedSub, if_pos (by omega)]
    constructor
    · exact Nat.zero_le x
    · have hgoal : calculate_transfer_fee_excluded_amount (some tf) 0 = .ok ⟨0, 0⟩ := by
        simp only [calculate_transfer_fee_excluded_amount,
          calculate_fee_eq tf 0 (by omega) hb, hfee0, hsub0]
      rw [show (⟨0, 0⟩ : TransferFeeIncludedAmount).amount = 0 from rfl,
        show (⟨0, 0⟩ : TransferFeeIncludedAmount).transfer_fee = 0 from rfl, hgoal, hy0]
  · by_cases hbp : tf.transferFeeBasisPoints = MAX_FEE_BASIS_POINTS
    · -- 100%-fee substitution branch: the fee used is maximum_fee
      have hxne : x ≠ 0 := by omega
      have hceilx : (x * tf.transferFeeBasisPoints + ONE_IN_BASIS_POINTS - 1)
          / ONE_IN_BASIS_POINTS = x := by
        rw [hbp]
        have hrw : x * MAX_FEE_BASIS_POINTS + ONE_IN_BASIS_POINTS - 1
            = 10000 * x + 9999 := by
          simp only [MAX_FEE_BASIS_POINTS, ONE_IN_BASIS_POINTS]
          have hc : x * 10000 = 10000 * x := Nat.mul_comm _ _
          omega
        rw [hrw]
        simp only [ONE_IN_BASIS_POINTS]
        rw [Nat.mul_add_div (by norm_num)]
        norm_num
      have hFx : feeValue tf x = min x tf.maximumFee := by
        unfold feeValue
        rw [if_neg ?_, hceilx]
        intro hcon
        rcases hcon with hcon | hcon
        · rw [hbp] at hcon
          exact absurd hcon (by decide)
        · exact hxne hcon
      have hFM : feeValue tf x = tf.maximumFee := by omega
      have hle : x - feeValue tf x + tf.maximumFee ≤ U64MAX := by omega
      have hcanon : calculate_transfer_fee_included_amount (some tf) (x - feeValue tf x)
          = (if tf.maximumFee = feeValue tf (x - feeValue tf x + tf.maximumFee)
             then .ok ⟨x - feeValue tf x + tf.maximumFee, tf.maximumFee⟩
             else .error .FeeInverseIsIncorrect) := by
        unfold calculate_transfer_fee_included_amount
        rw [if_neg hy0]
        simp only [if_pos hbp, u64checkedAdd, if_pos hle,
          calculate_fee_eq tf (x - feeValue tf x + tf.maximumFee) hle hb]
      rw [hcanon] at hinc
      split at hinc
      · rename_i hver
        injection hinc with h
        subst h
        constructor
        · have hres : x - feeValue tf x + tf.maximumFee ≤ x := by omega
          exact hres
        · dsimp only
          have hsub2 : u64checkedSub (x - feeValue tf x + tf.maximumFee) tf.maximumFee
              = some (x - feeValue tf x) := by
            rw [u64checkedSub, if_pos (by omega)]
            congr 1
            omega
          simp only [calculate_transfer_fee_excluded_amount,
            calculate_fee_eq tf (x - feeValue tf x + tf.maximumFee) hle hb,
            ← hver, hsub2]
      · exact absurd hinc (by simp)
    · -- regular inverse-fee branch
      have hbne : tf.transferFeeBasisPoints ≠ ONE_IN_BASIS_POINTS := by
        have hMO : MAX_FEE_BASIS_POINTS = ONE_IN_BASIS_POINTS := by decide
        omega
      cases hinv : tf.calculate_inverse_fee (x - feeValue tf x) with
      | none =>
        have hcanon : calculate_transfer_fee_included_amount (some tf) (x - feeValue tf x)
            = .error .MathOverflow := by
          unfold calculate_transfer_fee_included_amount
          rw [if_neg hy0]
          simp only [if_neg hbp, hinv]
        rw [hcanon] at hinc
        exact absurd hinc (by simp)
      | some fee =>
        unfold TransferFee.calculate_inverse_fee at hinv
        cases hpre : tf.calculate_pre_fee_amount (x - feeValue tf x) with
        | none =>
          rw [hpre] at hinv
          exact absurd hinv (by simp)
        | some pre =>
          rw [hpre] at hinv
          simp only [Option.bind_eq_bind, Option.some_bind] at hinv
          have hprele : pre ≤ x := calculate_pre_fee_amount_le tf x pre hb hbne hx hy0 hpre
          have hfee : fee = feeValue tf pre := by
            rw [calculate_fee_eq tf pre (by omega) hb] at hinv
            injection hinv with h
            exact h.symm
          have hfeeF : fee ≤ feeValue tf x := by
            rw [hfee]
            exact feeValue_mono tf pre x hprele
          have hle : x - feeValue tf x + fee ≤ U64MAX := by omega
          have hinv2 : tf.calculate_inverse_fee (x - feeValue tf x) = some fee := by
            unfold TransferFee.calculate_inverse_fee
            rw [hpre]
            simp only [Option.bind_eq_bind, Option.some_bind]
            rw [calculate_fee_eq tf pre (by omega) hb, ← hfee]
          have hcanon : calculate_transfer_fee_included_amount (some tf) (x - feeValue tf x)
              = (if fee = feeValue tf (x - feeValue tf x + fee)
                 then .ok ⟨x - feeValue tf x + fee, fee⟩
                 else .error .FeeInverseIsIncorrect) := by
            unfold calculate_transfer_fee_included_amount
            rw [if_neg hy0]
            simp only [if_neg hbp, hinv2, u64checkedAdd, if_pos hle,
              calculate_fee_eq tf (x - feeValue tf x + fee) hle hb]
          rw [hcanon] at hinc
          split at hinc
          · rename_i hver
            injection hinc with h
            subst h
            constructor
            · have hres : x - feeValue tf x + fee ≤ x := by omega
              exact hres
            · dsimp only
              have hsub2 : u64checkedSub (x - feeValue tf x + fee) fee
                  = some (x - feeValue tf x) := by
                rw [u64checkedSub, if_pos (by omega)]
                congr 1
                omega
              simp only [calculate_transfer_fee_excluded_amount,
                calculate_fee_eq tf (x - feeValue tf x + fee) hle hb,
                ← hver, hsub2]
          · exact absurd hinc (by simp)


/-- Counterexample to C6: with a 50% fee schedule, x = 3 excludes to 1 (fee
2), but the inverse conversion of 1 returns 2 (fee 1), not 3 — the round trip
loses the rounding remainder. -/
theorem C6_counterexample :
    calculate_transfer_fee_excluded_amount (some ⟨5000, 1000000⟩) 3 = .ok ⟨1, 2⟩ ∧
    calculate_transfer_fee_included_amount (some ⟨5000, 1000000⟩) 1 = .ok ⟨2, 1⟩ ∧
    (2 : Nat) ≠ 3 :=
  ⟨rfl, rfl, by decide⟩

/-- Witness for the amended C6 at the 50% schedule and x = 3. -/
theorem C6_round_trip_witness :
    ∃ exc : TransferFeeExcludedAmount,
      calculate_transfer_fee_excluded_amount (some ⟨5000, 1000000⟩) 3 = .ok exc ∧
      ∀ inc : TransferFeeIncludedAmount,
        calculate_transfer_fee_included_amount (some ⟨5000, 1000000⟩) exc.amount = .ok inc →
        inc.amount ≤ 3 ∧
        calculate_transfer_fee_excluded_amount (some ⟨5000, 1000000⟩) inc.amount
          = .ok ⟨exc.amount, inc.transfer_fee⟩ :=
  C6_round_trip ⟨5000, 1000000⟩ 3 (by decide) (by decide)
